import Mathlib

/-!
Shallow embedding of the syntenic-window builder and query engine
(`syntesuite`): strand handling (`src/lib.rs`), landscape serialization and
windowing (`src/dbmaker/mod.rs`), landscape deserialization, truncation and
the three `GeneBook` lookup strategies (`src/genebook.rs`), the family index
builder and the per-file genome ingestion loop (`src/dbmaker/mod.rs`).

Machine integers (`usize`) are modelled as `Nat` (no arithmetic here can
overflow on the inputs considered); `isize` window arithmetic is modelled as
`Int` exactly where the source casts; Rust panics (`unwrap`) are modelled as
`Option`/`Except` failures; `HashMap`s are modelled as association lists (for
structures whose contents theorems inspect) or as functions built by
overwriting insertion (for pure key-value lookup).
-/

/-- `enum Strand { Direct, Reverse, Unknown }` from `src/lib.rs`. -/
inductive Strand where
  | Direct
  | Reverse
  | Unknown
deriving DecidableEq, Repr

/-- `impl Default for Strand` (`src/lib.rs`): the default strand is `Unknown`. -/
instance : Inhabited Strand := ⟨Strand.Unknown⟩

/-- `impl TryFrom<char> for Strand` (`src/lib.rs`): `+`, `-`, `.`; anything
else is an `InvalidStrand` error, modelled as `none`. -/
def strandTryFromChar (c : Char) : Option Strand :=
  if c = '+' then some Strand.Direct
  else if c = '-' then some Strand.Reverse
  else if c = '.' then some Strand.Unknown
  else none

/-- `impl TryFrom<&str> for Strand` (`src/lib.rs`): `"+" | "1" | "+1"`,
`"-" | "-1"`, `"."`; anything else is an `InvalidStrand` error (`none`). -/
def strandTryFromString (s : String) : Option Strand :=
  if s = "+" ∨ s = "1" ∨ s = "+1" then some Strand.Direct
  else if s = "-" ∨ s = "-1" then some Strand.Reverse
  else if s = "." then some Strand.Unknown
  else none

/-- `impl From<Strand> for char` (`src/lib.rs`). -/
def charFromStrand : Strand → Char
  | Strand.Direct => '+'
  | Strand.Reverse => '-'
  | Strand.Unknown => '.'

/-- `impl From<Strand> for String` (`src/lib.rs`): note that `Unknown` maps
to `"-"`, not `"."`. -/
def stringFromStrand : Strand → String
  | Strand.Direct => "+"
  | Strand.Reverse => "-"
  | Strand.Unknown => "-"

/-- `struct TailGene { family: FamilyID, strand: Strand }`
(`src/genebook.rs`); `FamilyID = usize` is modelled as `Nat`. -/
structure TailGene where
  family : Nat
  strand : Strand
deriving DecidableEq, Repr

/-- `impl PartialEq for TailGene` (`src/genebook.rs`): equality compares the
family id only, ignoring the strand. -/
def TailGene.eqRs (a b : TailGene) : Bool :=
  a.family == b.family

/-- The token the Landscape Window Computer writes for one neighbour:
`format!("\x7b\x7d\x7b\x7d", a.dir, a.ancestral_id)` in `db_from_files`
(`src/dbmaker/mod.rs`); `Display for Strand` prints the `char` conversion. -/
def tailGeneToken (dir : Strand) (ancestral_id : Nat) : String :=
  String.singleton (charFromStrand dir) ++ toString ancestral_id

/-- The serialized form of one tail list, as `db_from_files` produces it:
the tokens joined by `"."` (empty list gives the empty string). -/
def serializeLandscape (l : List TailGene) : String :=
  String.intercalate "." (l.map fun g => tailGeneToken g.strand g.family)

/-- `g.strip_prefix(['+', '-', '.']).unwrap_or(g)` inside `parse_tailgene`
(`src/genebook.rs`): drop one leading strand character when present. -/
def stripStrandChar (g : String) : String :=
  match g.toList with
  | [] => g
  | c :: rest => if c = '+' ∨ c = '-' ∨ c = '.' then String.mk rest else g

/-- Rust `usize::from_str`: an optional leading `'+'` followed by one or
more ASCII digits; anything else (in particular the empty string) fails. -/
def parseUsize (s : String) : Option Nat :=
  let ds :=
    match s.toList with
    | '+' :: rest => rest
    | l => l
  if ds.isEmpty ∨ ds.any (fun c => ¬ c.isDigit) then none
  else some (ds.foldl (fun n c => n * 10 + (c.toNat - '0'.toNat)) 0)

/-- `parse_tailgene` inside `GeneBook::parse_landscape` (`src/genebook.rs`):
strand from the first character, defaulting to `Unknown`; family id from the
rest, where `parse::<usize>().unwrap()` panicking is modelled as `none`. -/
def parse_tailgene (g : String) : Option TailGene :=
  let strand := ((g.toList.head?).bind strandTryFromChar).getD Strand.Unknown
  (parseUsize (stripStrandChar g)).map fun family =>
    { family := family, strand := strand }

/-- Rust `str::split(sep)` for a one-character separator: every occurrence
of `sep` ends a piece, so the empty string yields `[""]` and a leading or
trailing separator yields an empty piece. -/
def splitOnChar (sep : Char) (s : String) : List String :=
  (s.toList.foldr
    (fun c acc =>
      if c = sep then [] :: acc
      else match acc with
        | cur :: rest => (c :: cur) :: rest
        | [] => [[c]])
    [[]]).map String.mk

/-- `GeneBook::parse_landscape` (`src/genebook.rs`): the empty string is the
empty list, otherwise split on `'.'` and parse each token (a token panic is
modelled as `none` for the whole parse). -/
def parse_landscape (landscape : String) : Option (List TailGene) :=
  if landscape.isEmpty then some []
  else (splitOnChar '.' landscape).mapM parse_tailgene

/-- `struct Annotation` from `src/dbmaker/mod.rs` (named `Annot` here): the
record the ingester keeps per retained gene. -/
structure Annot where
  id : String
  dir : Strand
  start : Nat
  stop : Nat
  ancestral_id : Nat
deriving DecidableEq, Repr

/-- The left window slice of `db_from_files` (`src/dbmaker/mod.rs`):
`i = (0.max(j - window)) as usize` and the slice `ids[i..j]`, with the
`isize` arithmetic carried out in `Int`. -/
def left_window_slice (ids : List Annot) (window : Int) (j : Nat) : List Annot :=
  let i := (max 0 ((j : Int) - window)).toNat
  (ids.take j).drop i

/-- The right window slice of `db_from_files` (`src/dbmaker/mod.rs`):
`k = ((ids.len() - 1).min(j + window)) as usize` and the slice
`ids[j + 1..=k]`. -/
def right_window_slice (ids : List Annot) (window : Int) (j : Nat) : List Annot :=
  let k := (min ((ids.length : Int) - 1) ((j : Int) + window)).toNat
  (ids.take (k + 1)).drop (j + 1)

/-- The `(family id, strand)` view of a slice, as the landscape tokens are
written from `a.dir` and `a.ancestral_id`. -/
def annotTail (l : List Annot) : List TailGene :=
  l.map fun a => { family := a.ancestral_id, strand := a.dir }

/-- The left-tail truncation of `GeneBook::get_rows` / `GeneBook::get`
(`src/genebook.rs`): `reverse(); truncate(window); reverse()`. -/
def truncateLeftTail (window : Nat) (l : List TailGene) : List TailGene :=
  ((l.reverse).take window).reverse

/-- The right-tail truncation of `GeneBook::get_rows` / `GeneBook::get`
(`src/genebook.rs`): `truncate(window)`. -/
def truncateRightTail (window : Nat) (l : List TailGene) : List TailGene :=
  l.take window

/-- One row of the `genomes` table in the column order `get_rows` selects:
id column, `left_tail_ids`, `right_tail_ids`, `ancestral_id`, `species`,
`chr`, `start`, `direction` (`src/genebook.rs`). -/
structure Row where
  id : String
  left_tail_ids : String
  right_tail_ids : String
  ancestral_id : Nat
  species : String
  chr : String
  start : Nat
  direction : String
deriving DecidableEq, Repr

/-- `struct Gene` from `src/genebook.rs`. -/
structure Gene where
  id : String
  species : String
  family : Nat
  chr : String
  pos : Nat
  strand : Strand
  left_landscape : List TailGene
  right_landscape : List TailGene
deriving DecidableEq, Repr

/-- `Gene::landscape` (`src/genebook.rs`): left tail, the gene itself, then
the right tail. -/
def Gene.landscape (g : Gene) : List TailGene :=
  g.left_landscape ++ [{ family := g.family, strand := g.strand }] ++ g.right_landscape

/-- The row-to-gene mapping of `GeneBook::get_rows` (`src/genebook.rs`):
parse both tails, truncate them, and read the strand with
`as_str().try_into().unwrap()` (panic modelled as `none`). -/
def rowToGene (window : Nat) (r : Row) : Option Gene := do
  let left ← parse_landscape r.left_tail_ids
  let right ← parse_landscape r.right_tail_ids
  let strand ← strandTryFromString r.direction
  pure { id := r.id, species := r.species, family := r.ancestral_id,
         chr := r.chr, pos := r.start, strand := strand,
         left_landscape := truncateLeftTail window left,
         right_landscape := truncateRightTail window right }

/-- The empty `HashMap<String, Gene>`, modelled as a function map. -/
def emptyGeneMap : String → Option Gene := fun _ => none

/-- `HashMap::insert`: later insertions overwrite earlier ones. -/
def insertGene (m : String → Option Gene) (k : String) (v : Gene) :
    String → Option Gene :=
  fun q => if q = k then some v else m q

/-- The row-collection loop of `GeneBook::get_rows` (`src/genebook.rs`):
each selected row becomes a `(id, Gene)` pair, a failing row (a panic in the
mapping closure) fails the whole call. -/
def collectRowPairs (window : Nat) : List Row → Option (List (String × Gene))
  | [] => some []
  | r :: rest => do
    let g ← rowToGene window r
    let l ← collectRowPairs window rest
    pure ((r.id, g) :: l)

/-- `GeneBook::get_rows` (`src/genebook.rs`): collect the mapped rows into a
`HashMap` keyed by the id column. -/
def get_rows (rows : List Row) (window : Nat) : Option (String → Option Gene) :=
  (collectRowPairs window rows).map
    fun l => l.foldl (fun m p => insertGene m p.1 p.2) emptyGeneMap

/-- `SELECT DISTINCT species FROM genomes`. -/
def speciesOf (rows : List Row) : List String :=
  (rows.map Row.species).dedup

/-- `enum GeneBook` (`src/genebook.rs`): the three retrieval strategies. The
`Inline` variant's mutex-guarded connection is modelled as the table itself
(the select by id column is a scan keyed on `Row.id`). -/
inductive GeneBook where
  | InMemory (genes : String → Option Gene) (species : List String)
  | Cached (genes : String → Option Gene) (species : List String)
  | Inline (table : List Row) (window : Nat)

/-- The error kinds `GeneBook` lookups surface (`src/errors.rs` plus the
storage-layer errors that pass through `anyhow`): `DataError::UnknownId`,
`DataError::ImmutableBook`, `rusqlite::Error::QueryReturnedNoRows` (as
`QueryNoRows`), and a panic inside the row-mapping closure (`RowPanic`). -/
inductive DataError where
  | UnknownId (id : String)
  | ImmutableBook
  | QueryNoRows
  | RowPanic
deriving DecidableEq, Repr

/-- `GeneBook::in_memory` (`src/genebook.rs`): full preload of every row. -/
def GeneBook.in_memory (rows : List Row) (window : Nat) : Option GeneBook :=
  (get_rows rows window).map fun genes => GeneBook.InMemory genes (speciesOf rows)

/-- `GeneBook::cached` (`src/genebook.rs`): preload restricted at the storage
layer to the rows whose id column is among `ids` (`WHERE id IN (...)`). -/
def GeneBook.cached (rows : List Row) (window : Nat) (ids : List String) :
    Option GeneBook :=
  (get_rows (rows.filter fun r => ids.contains r.id) window).map
    fun genes => GeneBook.Cached genes (speciesOf rows)

/-- The row mapping inside `GeneBook::get`'s `Inline` arm
(`src/genebook.rs`): same truncation, but the strand is read with
`chars().next().and_then(try_into).unwrap_or_default()` (default
`Unknown`, no panic), and the gene id is the queried string. -/
def rowToGeneInline (window : Nat) (g : String) (r : Row) : Option Gene := do
  let left ← parse_landscape r.left_tail_ids
  let right ← parse_landscape r.right_tail_ids
  let strand := ((r.direction.toList.head?).bind strandTryFromChar).getD Strand.Unknown
  pure { id := g, species := r.species, family := r.ancestral_id,
         chr := r.chr, pos := r.start, strand := strand,
         left_landscape := truncateLeftTail window left,
         right_landscape := truncateRightTail window right }

/-- `GeneBook::get` (`src/genebook.rs`): map lookup for the preload
strategies (`UnknownId` on a miss); for `Inline`, a point query whose empty
result is the storage layer's no-rows error, not `UnknownId`. -/
def GeneBook.get : GeneBook → String → Except DataError Gene
  | GeneBook.InMemory genes _, g =>
      match genes g with
      | some gene => Except.ok gene
      | none => Except.error (DataError.UnknownId g)
  | GeneBook.Cached genes _, g =>
      match genes g with
      | some gene => Except.ok gene
      | none => Except.error (DataError.UnknownId g)
  | GeneBook.Inline table window, g =>
      match table.find? (fun r => r.id == g) with
      | none => Except.error DataError.QueryNoRows
      | some r =>
          match rowToGeneInline window g r with
          | some gene => Except.ok gene
          | none => Except.error DataError.RowPanic

/-- `GeneBook::get_mut` (`src/genebook.rs`): the preload strategies hand out
the stored gene (modelled by value) or `UnknownId`; `Inline` always fails
with `ImmutableBook`. -/
def GeneBook.get_mut : GeneBook → String → Except DataError Gene
  | GeneBook.InMemory genes _, g =>
      match genes g with
      | some gene => Except.ok gene
      | none => Except.error (DataError.UnknownId g)
  | GeneBook.Cached genes _, g =>
      match genes g with
      | some gene => Except.ok gene
      | none => Except.error (DataError.UnknownId g)
  | GeneBook.Inline _ _, _ => Except.error DataError.ImmutableBook

/-- An example chromosome gene list (three retained genes sorted by start). -/
def exChromAnnots : List Annot :=
  [ { id := "g1", dir := Strand.Direct, start := 10, stop := 15, ancestral_id := 1 }
  , { id := "g2", dir := Strand.Reverse, start := 20, stop := 25, ancestral_id := 2 }
  , { id := "g3", dir := Strand.Direct, start := 30, stop := 35, ancestral_id := 3 } ]

/-- C1: for every tail list the Landscape Window Computer serializes, the
claim says `parse_landscape` recovers it exactly and the empty list
serializes to the empty string. The empty-list half holds, but the round
trip breaks on an `Unknown` strand: `[{family 5, Unknown}]` serializes to
`".5"` (the `Unknown` strand character is `'.'`, the same character the
tokens are joined with), which splits into `["", "5"]`, and parsing the
empty token panics (`parse::<usize>().unwrap()` on `""`, modelled `none`);
the deserializer's own `strip_prefix(['+','-','.'])` shows `'.'`-prefixed
tokens were meant to be parseable. -/
theorem landscape_roundtrip_panics_on_unknown_strand :
    serializeLandscape [{ family := 5, strand := Strand.Unknown }] = ".5" ∧
    parse_landscape ".5" = none ∧
    parse_landscape (serializeLandscape [{ family := 5, strand := Strand.Unknown }]) ≠
      some [{ family := 5, strand := Strand.Unknown }] ∧
    serializeLandscape [] = "" ∧ parse_landscape "" = some [] := by
  refine ⟨by decide, by decide, by decide, by decide, by decide⟩

/-- C2: for windows `W ≥ 0` and a chromosome list of length `N`, the window
slices of `db_from_files` at index `j < N` have `len(left) = min j W` and
`len(right) = min (N－1－j) W`. -/
theorem window_slice_lengths (ids : List Annot) (window : Int) (j : Nat)
    (hw : 0 ≤ window) (hj : j < ids.length) :
    (left_window_slice ids window j).length = min j window.toNat ∧
    (right_window_slice ids window j).length =
      min (ids.length - 1 - j) window.toNat := by
  constructor
  · simp only [left_window_slice, List.length_drop, List.length_take]
    omega
  · simp only [right_window_slice, List.length_drop, List.length_take]
    omega

/-- C2 witness: the window lengths evaluated on the three-gene chromosome
with `W = 2`, `j = 1`. -/
theorem window_slice_lengths_witness :
    0 ≤ (2 : Int) ∧ 1 < exChromAnnots.length ∧
    ((left_window_slice exChromAnnots 2 1).length = min 1 (2 : Int).toNat ∧
     (right_window_slice exChromAnnots 2 1).length =
       min (exChromAnnots.length - 1 - 1) (2 : Int).toNat) :=
  ⟨by decide, by decide, window_slice_lengths exChromAnnots 2 1 (by decide) (by decide)⟩

/-- A row whose tails hold three families on each side. -/
def exRowTails : Row :=
  { id := "g", left_tail_ids := "+1.+2.+3", right_tail_ids := "+4.+5.+6",
    ancestral_id := 9, species := "S", chr := "c", start := 100, direction := "+" }

/-- C4: at query window `w` the left tail keeps its last `w` elements in
order (reverse, truncate, reverse) and the right tail its first `w`; on
`[f1,f2,f3]` with `w = 2` the left result is `[f2,f3]`, on `[f4,f5,f6]` the
right result is `[f4,f5]`, as `get_rows` applies them to a stored row. -/
theorem truncation_asymmetry :
    (∀ (l : List TailGene) (w : Nat),
        truncateLeftTail w l = l.drop (l.length - w) ∧
        truncateRightTail w l = l.take w) ∧
    truncateLeftTail 2
        [⟨1, Strand.Direct⟩, ⟨2, Strand.Direct⟩, ⟨3, Strand.Direct⟩] =
      [⟨2, Strand.Direct⟩, ⟨3, Strand.Direct⟩] ∧
    truncateRightTail 2
        [⟨4, Strand.Direct⟩, ⟨5, Strand.Direct⟩, ⟨6, Strand.Direct⟩] =
      [⟨4, Strand.Direct⟩, ⟨5, Strand.Direct⟩] ∧
    (rowToGene 2 exRowTails).map Gene.left_landscape =
      some [⟨2, Strand.Direct⟩, ⟨3, Strand.Direct⟩] ∧
    (rowToGene 2 exRowTails).map Gene.right_landscape =
      some [⟨4, Strand.Direct⟩, ⟨5, Strand.Direct⟩] := by
  refine ⟨fun l w => ⟨?_, rfl⟩, by decide, by decide, by decide, by decide⟩
  simp only [truncateLeftTail]
  rw [List.reverse_take]
  simp

/-- C7: `TailGene` equality as Rust defines it compares the family id only:
equal families with different strands compare equal, different families do
not. -/
theorem tailgene_eq_ignores_strand :
    (∀ a b : TailGene, TailGene.eqRs a b = true ↔ a.family = b.family) ∧
    TailGene.eqRs ⟨5, Strand.Direct⟩ ⟨5, Strand.Reverse⟩ = true ∧
    TailGene.eqRs ⟨5, Strand.Direct⟩ ⟨6, Strand.Direct⟩ = false := by
  refine ⟨fun a b => ?_, by decide, by decide⟩
  simp [TailGene.eqRs]

/-- C9: `get_mut` always fails with the typed `ImmutableBook` error on the
lazy strategy, and on both preload strategies hands out the stored gene when
the id is present and the `UnknownId` error otherwise. -/
theorem get_mut_strategy_contract :
    (∀ (table : List Row) (window : Nat) (g : String),
        (GeneBook.Inline table window).get_mut g =
          Except.error DataError.ImmutableBook) ∧
    (∀ (genes : String → Option Gene) (sp : List String) (g : String) (gene : Gene),
        genes g = some gene →
          (GeneBook.InMemory genes sp).get_mut g = Except.ok gene ∧
          (GeneBook.Cached genes sp).get_mut g = Except.ok gene) ∧
    (∀ (genes : String → Option Gene) (sp : List String) (g : String),
        genes g = none →
          (GeneBook.InMemory genes sp).get_mut g =
            Except.error (DataError.UnknownId g) ∧
          (GeneBook.Cached genes sp).get_mut g =
            Except.error (DataError.UnknownId g)) := by
  refine ⟨fun _ _ _ => rfl, ?_, ?_⟩
  · intro genes sp g gene h
    constructor <;> simp [GeneBook.get_mut, h]
  · intro genes sp g h
    constructor <;> simp [GeneBook.get_mut, h]

/-- A row persisted for a gene ingested with `Unknown` strand: the direction
column holds `String::from(Strand::Unknown)`. -/
def exRowUnknownStrand : Row :=
  { id := "g", left_tail_ids := "", right_tail_ids := "",
    ancestral_id := 3, species := "S", chr := "c", start := 1,
    direction := stringFromStrand Strand.Unknown }

/-- C10: `From<Strand> for String` sends `Unknown` to `"-"` (while the char
conversion sends it to `'.'`), so the persisted direction of an
`Unknown`-strand gene reads back as `Reverse` through both the preload row
mapping and the inline one. -/
theorem unknown_strand_round_trips_as_reverse :
    stringFromStrand Strand.Unknown = "-" ∧
    charFromStrand Strand.Unknown = '.' ∧
    strandTryFromString (stringFromStrand Strand.Unknown) = some Strand.Reverse ∧
    (rowToGene 1 exRowUnknownStrand).map Gene.strand = some Strand.Reverse ∧
    (rowToGeneInline 1 "g" exRowUnknownStrand).map Gene.strand =
      some Strand.Reverse := by
  refine ⟨by decide, by decide, by decide, by decide, by decide⟩

/-- Rust `str::split_whitespace`: pieces between runs of whitespace, empty
pieces skipped. -/
def splitWhitespaceTokens (s : String) : List String :=
  ((s.toList.foldr
    (fun c acc =>
      if c.isWhitespace then [] :: acc
      else match acc with
        | cur :: rest => (c :: cur) :: rest
        | [] => [[c]])
    [[]]).filter (fun t => ¬ t.isEmpty)).map String.mk

/-- `parse_family` (`src/dbmaker/mod.rs`): every whitespace-separated token
of every line of one family file maps to the current ancestral id, which is
then incremented once per file. The `HashMap<String, usize>` is a function
map; `insert` overwrites. -/
def parse_family (lines : List String) (current_ancestral_id : Nat)
    (id2ancestral : String → Option Nat) : Nat × (String → Option Nat) :=
  let m := lines.foldl
    (fun m l =>
      (splitWhitespaceTokens l).foldl
        (fun m id => fun q => if q = id then some current_ancestral_id else m q) m)
    id2ancestral
  (current_ancestral_id + 1, m)

/-- The family-parsing loop of `db_from_files` (`src/dbmaker/mod.rs`): the
files in processing order, with `current_ancestral_id` starting at `1`. -/
def buildFamilyIndex (files : List (List String)) : String → Option Nat :=
  (files.foldl (fun st f => parse_family f st.1 st.2) (1, fun _ => none)).2

/-- C5 counterexample: on family file A = `g1 g2` before family file B =
`g3`, the built map is not `g1↦0, g2↦0, g3↦1` — `db_from_files` starts
`current_ancestral_id` at `1`, so `g1` maps to `1`. -/
theorem family_index_origin_cx :
    buildFamilyIndex [["g1 g2"], ["g3"]] "g1" = some 1 ∧
    ¬ (buildFamilyIndex [["g1 g2"], ["g3"]] "g1" = some 0 ∧
       buildFamilyIndex [["g1 g2"], ["g3"]] "g2" = some 0 ∧
       buildFamilyIndex [["g1 g2"], ["g3"]] "g3" = some 1) := by
  refine ⟨by decide, by decide⟩

/-- C5 amended: family ids are assigned sequentially in file-processing
order starting at `1`: file A = `g1 g2`, then file B = `g3`, gives
`g1↦1, g2↦1, g3↦2`. -/
theorem family_index_origin_one :
    buildFamilyIndex [["g1 g2"], ["g3"]] "g1" = some 1 ∧
    buildFamilyIndex [["g1 g2"], ["g3"]] "g2" = some 1 ∧
    buildFamilyIndex [["g1 g2"], ["g3"]] "g3" = some 2 := by
  refine ⟨by decide, by decide, by decide⟩

/-- The view of a GFF3 record that `Record` in `src/lib.rs` consumes: the
decoder leaves the strand `none` when the column is `"."` (and only ever
stores `Direct` or `Reverse`). -/
structure GffRecordM where
  chr : String
  cls : Option String
  start : Nat
  stop : Nat
  strand : Option Strand
  id : Option String
deriving DecidableEq, Repr

/-- `struct BedRecord` (`src/bed.rs`); the unused `score: Option<f32>` field
is omitted. The decoder leaves `strand` `none` when the sixth column is
absent and panics on an unrecognized value. -/
structure BedRecordM where
  chr : String
  start : Nat
  stop : Nat
  id : Option String
  strand : Option Strand
deriving DecidableEq, Repr

/-- `struct ChromRecord` (`src/chrom.rs`): strand and id are mandatory. -/
structure ChromRecordM where
  chr : String
  start : Nat
  stop : Nat
  id : String
  strand : Strand
deriving DecidableEq, Repr

/-- `BedRecord::strand` (`src/bed.rs`): `self.strand.unwrap_or(Strand::Direct)`. -/
def BedRecordM.strandView (r : BedRecordM) : Strand :=
  r.strand.getD Strand.Direct

/-- `enum Record` (`src/lib.rs`): the uniform record the ingester consumes. -/
inductive Record where
  | Gff (r : GffRecordM)
  | Bed (r : BedRecordM)
  | Chrom (r : ChromRecordM)
deriving DecidableEq, Repr

/-- `Record::id` (`src/lib.rs`). -/
def Record.idOpt : Record → Option String
  | Record.Gff r => r.id
  | Record.Bed r => r.id
  | Record.Chrom r => some r.id

/-- `Record::chr` (`src/lib.rs`). -/
def Record.chr : Record → String
  | Record.Gff r => r.chr
  | Record.Bed r => r.chr
  | Record.Chrom r => r.chr

/-- `Record::start` (`src/lib.rs`). -/
def Record.start : Record → Nat
  | Record.Gff r => r.start
  | Record.Bed r => r.start
  | Record.Chrom r => r.start

/-- `Record::end` (`src/lib.rs`). -/
def Record.stop : Record → Nat
  | Record.Gff r => r.stop
  | Record.Bed r => r.stop
  | Record.Chrom r => r.stop

/-- `Record::strand` (`src/lib.rs`): an absent strand falls back to
`Strand::Direct` (`unwrap_or(Strand::Direct)`) for both GFF and BED
records. -/
def Record.strand : Record → Strand
  | Record.Gff r => r.strand.getD Strand.Direct
  | Record.Bed r => r.strandView
  | Record.Chrom r => r.strand

/-- `Record::is_class` (`src/lib.rs`): GFF records match on their class
column; BED and chromosome-table records are always accepted. -/
def Record.is_class (rec : Record) (cls : String) : Bool :=
  match rec with
  | Record.Gff r => (r.cls.map fun c => c == cls).getD false
  | Record.Bed _ => true
  | Record.Chrom _ => true

/-- C6 counterexample: a BED record and a GFF record with an absent strand
field expose `Direct` to the ingester, not `Unknown`. -/
theorem strand_absent_cx :
    Record.strand (Record.Bed
      { chr := "c", start := 0, stop := 10, id := some "g", strand := none }) =
      Strand.Direct ∧
    Record.strand (Record.Gff
      { chr := "c", cls := some "gene", start := 0, stop := 10,
        strand := none, id := some "g" }) = Strand.Direct ∧
    Strand.Direct ≠ Strand.Unknown := by
  refine ⟨by decide, by decide, by decide⟩

/-- C6 amended: a GFF3 or BED record whose strand field is absent exposes
`Direct` (not `Unknown`) to the ingester; a BED `"."` strand, which the
decoder stores as `Unknown`, is exposed as `Unknown`. -/
theorem strand_absent_defaults_direct :
    (∀ r : GffRecordM, r.strand = none → Record.strand (Record.Gff r) = Strand.Direct) ∧
    (∀ r : BedRecordM, r.strand = none → Record.strand (Record.Bed r) = Strand.Direct) ∧
    (∀ r : BedRecordM, r.strand = some Strand.Unknown →
        Record.strand (Record.Bed r) = Strand.Unknown) := by
  refine ⟨fun r h => ?_, fun r h => ?_, fun r h => ?_⟩ <;>
    simp [Record.strand, BedRecordM.strandView, h]

/-- Every key `collectRowPairs` emits is the id column of some row. -/
theorem collectRowPairs_keys {window : Nat} :
    ∀ {rows : List Row} {l : List (String × Gene)},
      collectRowPairs window rows = some l →
      ∀ p ∈ l, ∃ r, r ∈ rows ∧ p.1 = r.id := by
  intro rows
  induction rows with
  | nil =>
    intro l h p hp
    simp only [collectRowPairs, Option.some.injEq] at h
    subst h
    simp at hp
  | cons r rest ih =>
    intro l h p hp
    cases hr : rowToGene window r with
    | none => simp [collectRowPairs, hr] at h
    | some gene =>
      cases hrest : collectRowPairs window rest with
      | none => simp [collectRowPairs, hr, hrest] at h
      | some l' =>
        simp [collectRowPairs, hr, hrest] at h
        subst h
        rcases List.mem_cons.mp hp with h1 | h2
        · exact ⟨r, List.mem_cons_self .., by simp [h1]⟩
        · obtain ⟨r', hr', hid⟩ := ih hrest p h2
          exact ⟨r', List.mem_cons_of_mem _ hr', hid⟩

/-- Folding insertions whose keys all differ from `g` cannot make `g`
present. -/
theorem foldl_insert_miss {g : String} :
    ∀ (l : List (String × Gene)) (m : String → Option Gene),
      (∀ p ∈ l, p.1 ≠ g) → m g = none →
      (l.foldl (fun m p => insertGene m p.1 p.2) m) g = none := by
  intro l
  induction l with
  | nil => intro m _ hm; simpa using hm
  | cons p rest ih =>
    intro m h hm
    simp only [List.foldl_cons]
    refine ih _ (fun q hq => h q (List.mem_cons_of_mem _ hq)) ?_
    have hpg : ¬ g = p.1 := fun e => h p (List.mem_cons_self ..) e.symm
    simp [insertGene, hpg, hm]

/-- A `get_rows` map contains no entry for an id no selected row has. -/
theorem get_rows_miss {rows : List Row} {window : Nat} {m : String → Option Gene}
    {g : String} (hm : get_rows rows window = some m)
    (habs : ∀ r ∈ rows, r.id ≠ g) : m g = none := by
  simp only [get_rows] at hm
  cases hl : collectRowPairs window rows with
  | none => simp [hl] at hm
  | some l =>
    simp only [hl, Option.map_some'] at hm
    cases hm
    refine foldl_insert_miss l emptyGeneMap ?_ rfl
    intro p hp
    obtain ⟨r, hr, hid⟩ := collectRowPairs_keys hl p hp
    exact hid ▸ habs r hr

def exRowA : Row :=
  { id := "a", left_tail_ids := "", right_tail_ids := "",
    ancestral_id := 1, species := "S", chr := "c", start := 0, direction := "+" }

def exTable : List Row := [exRowA]

def exGeneA : Gene :=
  { id := "a", species := "S", family := 1, chr := "c", pos := 0,
    strand := Strand.Direct, left_landscape := [], right_landscape := [] }

def exBookInMemory : GeneBook :=
  GeneBook.InMemory (insertGene emptyGeneMap "a" exGeneA) ["S"]

def exBookCached : GeneBook :=
  GeneBook.Cached (insertGene emptyGeneMap "a" exGeneA) ["S"]


/-- C3 amended: an id absent from the underlying table yields
`DataError::UnknownId` under the full-preload and filtered-preload
strategies, but the lazy/inline strategy surfaces the storage layer's
query-returned-no-rows error, a different kind. -/
theorem get_unknown_id_error_kinds (rows : List Row) (window : Nat)
    (ids : List String) (g : String) (bookM bookC : GeneBook)
    (habs : ∀ r ∈ rows, r.id ≠ g)
    (hmem : GeneBook.in_memory rows window = some bookM)
    (hcac : GeneBook.cached rows window ids = some bookC) :
    bookM.get g = Except.error (DataError.UnknownId g) ∧
    bookC.get g = Except.error (DataError.UnknownId g) ∧
    (GeneBook.Inline rows window).get g = Except.error DataError.QueryNoRows := by
  refine ⟨?_, ?_, ?_⟩
  · simp only [GeneBook.in_memory, Option.map_eq_some'] at hmem
    obtain ⟨m, hg, hbook⟩ := hmem
    subst hbook
    have hnone := get_rows_miss hg habs
    simp [GeneBook.get, hnone]
  · simp only [GeneBook.cached, Option.map_eq_some'] at hcac
    obtain ⟨m, hg, hbook⟩ := hcac
    subst hbook
    have hnone := get_rows_miss hg fun r hr => habs r (List.mem_of_mem_filter hr)
    simp [GeneBook.get, hnone]
  · have hfind : rows.find? (fun r => r.id == g) = none := by
      rw [List.find?_eq_none]
      intro r hr
      simpa using habs r hr
    simp [GeneBook.get, hfind]

/-- C3 witness: the three strategies evaluated over a one-row table on the
absent id `"x"`. -/
theorem get_unknown_id_error_kinds_witness :
    (∀ r ∈ exTable, r.id ≠ "x") ∧
    (exBookInMemory.get "x" = Except.error (DataError.UnknownId "x") ∧
     exBookCached.get "x" = Except.error (DataError.UnknownId "x") ∧
     (GeneBook.Inline exTable 1).get "x" = Except.error DataError.QueryNoRows) :=
  ⟨by decide, get_unknown_id_error_kinds exTable 1 ["a"] "x" exBookInMemory exBookCached
      (by decide) rfl rfl⟩

/-- C3 counterexample: over the same one-row table, the absent id `"x"`
draws `UnknownId` from the preloaded book but `QueryNoRows` from the inline
book — the error kind is not the same across strategies. -/
theorem get_unknown_error_kind_cx :
    GeneBook.in_memory exTable 1 = some exBookInMemory ∧
    exBookInMemory.get "x" = Except.error (DataError.UnknownId "x") ∧
    (GeneBook.Inline exTable 1).get "x" = Except.error DataError.QueryNoRows ∧
    DataError.QueryNoRows ≠ DataError.UnknownId "x" :=
  ⟨rfl, rfl, rfl, by decide⟩

/-! Ingestion model (`parse_genome` and the `genomes` accumulator of
`db_from_files`, `src/dbmaker/mod.rs`). -/

deriving instance DecidableEq for Except

/-- `HashMap::entry(k).or_default()` followed by an in-place update: modify
the value stored at `k`, inserting `f d` when `k` is absent. -/
def updateAssoc {β : Type} (k : String) (d : β) (f : β → β) :
    List (String × β) → List (String × β)
  | [] => [(k, f d)]
  | (k', v) :: rest =>
      if k' = k then (k', f v) :: rest else (k', v) :: updateAssoc k d f rest

/-- `HashMap` lookup over the association-list model. -/
def lookupAssoc {β : Type} (k : String) : List (String × β) → Option β
  | [] => none
  | (k', v) :: rest => if k' = k then some v else lookupAssoc k rest

/-- `HashMap<String, HashMap<String, Vec<Annotation>>>` (species →
chromosome → annotations in push order), as an association list. -/
abbrev Genomes := List (String × List (String × List Annot))

/-- `genomes.entry(species).or_default().entry(chr).or_default().push(a)`
(`parse_genome`, `src/dbmaker/mod.rs`). -/
def pushAnnot (genomes : Genomes) (species chr : String) (a : Annot) : Genomes :=
  updateAssoc species []
    (fun chrs => updateAssoc chr [] (fun l => l ++ [a]) chrs) genomes

/-- `ids.sort_by_key(|a| a.start)`: Rust's stable sort by key, modelled by
the stable insertion sort. -/
def sortAnnots (l : List Annot) : List Annot :=
  l.insertionSort fun a b => a.start ≤ b.start

/-- The post-loop step of `parse_genome`: sort every chromosome list of the
file's species by start coordinate. -/
def sortGenomeChrs (genomes : Genomes) (species : String) : Genomes :=
  genomes.map fun p =>
    (p.1, if p.1 = species then p.2.map (fun q => (q.1, sortAnnots q.2)) else p.2)

/-- The annotations stored under `(species s, chromosome c)`. -/
def annotsAt (genomes : Genomes) (s c : String) : List Annot :=
  (lookupAssoc c ((lookupAssoc s genomes).getD [])).getD []

/-- The data errors `parse_genome` can surface (`Error` in
`src/dbmaker/mod.rs`). -/
inductive IngestError where
  | RecordWithoutId (desc : String)
  | IdNotFound (id : String)
deriving DecidableEq, Repr

/-- The record loop of `parse_genome` (`src/dbmaker/mod.rs`): filter by
feature class, extract the canonical id (the regex capture modelled by
`idExtract`), resolve the family, skip ids already seen in this file, push
the annotation, and sort the species' chromosome lists at the end. -/
def parse_genome_go (idType : String) (idExtract : String → Option String)
    (id2ancestral : String → Option Nat) (species : String) :
    List Record → List String → Genomes → Except IngestError Genomes
  | [], _, genomes => Except.ok (sortGenomeChrs genomes species)
  | rec :: rest, seen, genomes =>
    if rec.is_class idType then
      match rec.idOpt with
      | none =>
          Except.error (IngestError.RecordWithoutId
            (rec.chr ++ ":" ++ toString rec.start ++ "-" ++ toString rec.stop))
      | some rawId =>
        match idExtract rawId with
        | none => Except.error (IngestError.IdNotFound rawId)
        | some id =>
          match id2ancestral id with
          | some ancestral_id =>
            if id ∈ seen then
              parse_genome_go idType idExtract id2ancestral species rest seen genomes
            else
              parse_genome_go idType idExtract id2ancestral species rest (id :: seen)
                (pushAnnot genomes species rec.chr
                  { id := id, dir := rec.strand, start := rec.start,
                    stop := rec.stop, ancestral_id := ancestral_id })
          | none =>
              parse_genome_go idType idExtract id2ancestral species rest seen genomes
    else parse_genome_go idType idExtract id2ancestral species rest seen genomes

/-- `parse_genome` (`src/dbmaker/mod.rs`) for one input file: the `seen`
set starts empty on every call. -/
def parse_genome (idType : String) (idExtract : String → Option String)
    (id2ancestral : String → Option Nat) (species : String)
    (records : List Record) (genomes : Genomes) : Except IngestError Genomes :=
  parse_genome_go idType idExtract id2ancestral species records [] genomes

/-- A BED record for gene `g` on chromosome `c`. -/
def exBedG : Record :=
  Record.Bed { chr := "c", start := 10, stop := 20, id := some "g",
               strand := some Strand.Direct }

/-- A family index mapping `g` to family `7`. -/
def exAnc : String → Option Nat := fun i => if i = "g" then some 7 else none

/-- An id regex whose `id` capture is the whole raw id. -/
def exIdExtract : String → Option String := fun i => some i

/-- Two ingestion calls over files that both resolve to species `S` and
both contain gene `g`, sharing one accumulator, as `db_from_files` does. -/
def ingestTwice : Except IngestError Genomes :=
  (parse_genome "gene" exIdExtract exAnc "S" [exBedG] []).bind
    (parse_genome "gene" exIdExtract exAnc "S" [exBedG])

/-- How many annotations the accumulated genomes hold for one
`(species, canonical id)` pair, across all chromosomes. -/
def pairCount (genomes : Genomes) (species id : String) : Nat :=
  ((lookupAssoc species genomes).getD []).foldl
    (fun n q => n + (q.2.filter fun a => a.id = id).length) 0



/-- Lookup after an `updateAssoc`. -/
theorem lookupAssoc_update {β : Type} (k k' : String) (d : β) (f : β → β) :
    ∀ l : List (String × β),
      lookupAssoc k (updateAssoc k' d f l) =
        if k = k' then some (f ((lookupAssoc k' l).getD d)) else lookupAssoc k l := by
  intro l
  induction l with
  | nil =>
    by_cases h : k = k'
    · subst h
      simp [updateAssoc, lookupAssoc]
    · have h' : ¬ k' = k := fun e => h e.symm
      simp [updateAssoc, lookupAssoc, h, h']
  | cons p rest ih =>
    obtain ⟨k0, v⟩ := p
    by_cases h0 : k0 = k'
    · subst h0
      by_cases h : k = k0
      · subst h
        simp [updateAssoc, lookupAssoc]
      · have h' : ¬ k0 = k := fun e => h e.symm
        simp [updateAssoc, lookupAssoc, h, h']
    · by_cases h : k0 = k
      · subst h
        have h' : ¬ k0 = k' := h0
        simp [updateAssoc, lookupAssoc, h0, h']
      · simp [updateAssoc, lookupAssoc, h0, h, ih]

theorem lookupAssoc_map {β γ : Type} (f : String → β → γ) (k : String) :
    ∀ l : List (String × β),
      lookupAssoc k (l.map fun p => (p.1, f p.1 p.2)) = (lookupAssoc k l).map (f k) := by
  intro l
  induction l with
  | nil => simp [lookupAssoc]
  | cons p rest ih =>
    obtain ⟨k0, v⟩ := p
    by_cases h : k0 = k
    · subst h
      simp [lookupAssoc]
    · simp [lookupAssoc, h, ih]

/-- `pushAnnot` appends at exactly one `(species, chromosome)` slot. -/
theorem annotsAt_push (g : Genomes) (sp ch s c : String) (a : Annot) :
    annotsAt (pushAnnot g sp ch a) s c =
      if s = sp ∧ c = ch then annotsAt g s c ++ [a] else annotsAt g s c := by
  simp only [annotsAt, pushAnnot, lookupAssoc_update]
  by_cases hs : s = sp
  · subst hs
    simp only [if_pos rfl, Option.getD_some, lookupAssoc_update]
    by_cases hc : c = ch
    · subst hc
      simp [lookupAssoc_update]
    · simp [lookupAssoc_update, hc]
  · have hno : ¬ (s = sp ∧ c = ch) := fun hm => hs hm.1
    simp [hs, hno]

/-- Lookup commutes with sorting every chromosome list. -/
theorem lookupAssoc_chr_sort (c : String) :
    ∀ chrs : List (String × List Annot),
      lookupAssoc c (chrs.map fun q => (q.1, sortAnnots q.2)) =
        (lookupAssoc c chrs).map sortAnnots := by
  intro chrs
  induction chrs with
  | nil => simp [lookupAssoc]
  | cons q rest ih =>
    obtain ⟨k0, v⟩ := q
    by_cases h : k0 = c
    · subst h
      simp [lookupAssoc]
    · simp [lookupAssoc, h, ih]

/-- Lookup after the per-species sort step. -/
theorem lookupAssoc_sortGenomeChrs (sp s : String) :
    ∀ g : Genomes,
      lookupAssoc s (sortGenomeChrs g sp) =
        (lookupAssoc s g).map
          fun v => if s = sp then v.map (fun q => (q.1, sortAnnots q.2)) else v := by
  intro g
  induction g with
  | nil => simp [sortGenomeChrs, lookupAssoc]
  | cons p rest ih =>
    obtain ⟨k0, v⟩ := p
    by_cases h : k0 = s
    · subst h
      simp [sortGenomeChrs, lookupAssoc]
    · simpa [sortGenomeChrs, lookupAssoc, h] using ih

/-- The sort step permutes each slot, so membership is unchanged. -/
theorem annotsAt_sort (g : Genomes) (sp s c : String) (a : Annot) :
    a ∈ annotsAt (sortGenomeChrs g sp) s c ↔ a ∈ annotsAt g s c := by
  simp only [annotsAt, lookupAssoc_sortGenomeChrs]
  cases hval : lookupAssoc s g with
  | none => simp
  | some chrs =>
    simp only [Option.map_some', Option.getD_some]
    by_cases hsp : s = sp
    · simp only [if_pos hsp, lookupAssoc_chr_sort]
      cases hc : lookupAssoc c chrs with
      | none => simp
      | some l => simp [sortAnnots, List.mem_insertionSort]
    · simp [hsp]

/-- At most one annotation per `(species, canonical id)` pair: two
annotations of one species sharing an id are one and the same. -/
def GenomesUniq (g : Genomes) : Prop :=
  ∀ s c c' a b, a ∈ annotsAt g s c → b ∈ annotsAt g s c' →
    a.id = b.id → c = c' ∧ a = b

/-- The record loop preserves both `GenomesUniq` and the invariant that
every stored id is in `seen`. -/
theorem parse_genome_go_uniq (idType : String) (idExtract : String → Option String)
    (id2ancestral : String → Option Nat) (species : String) :
    ∀ (records : List Record) (seen : List String) (genomes : Genomes),
      (∀ s c a, a ∈ annotsAt genomes s c → a.id ∈ seen) →
      GenomesUniq genomes →
      ∀ g, parse_genome_go idType idExtract id2ancestral species records seen genomes =
          Except.ok g →
        GenomesUniq g := by
  intro records
  induction records with
  | nil =>
    intro seen genomes hseen huniq g hok
    simp only [parse_genome_go, Except.ok.injEq] at hok
    subst hok
    intro s c c' a b ha hb hid
    exact huniq s c c' a b ((annotsAt_sort ..).mp ha) ((annotsAt_sort ..).mp hb) hid
  | cons rec rest ih =>
    intro seen genomes hseen huniq g hok
    simp only [parse_genome_go] at hok
    by_cases hcl : rec.is_class idType
    · rw [if_pos hcl] at hok
      cases hid0 : rec.idOpt with
      | none =>
        simp only [hid0] at hok
        exact absurd hok (by simp)
      | some rawId =>
        simp only [hid0] at hok
        cases hex : idExtract rawId with
        | none =>
          simp only [hex] at hok
          exact absurd hok (by simp)
        | some id =>
          simp only [hex] at hok
          cases hanc : id2ancestral id with
          | none =>
            simp only [hanc] at hok
            exact ih seen genomes hseen huniq g hok
          | some ancestral_id =>
            simp only [hanc] at hok
            by_cases hmem : id ∈ seen
            · rw [if_pos hmem] at hok
              exact ih seen genomes hseen huniq g hok
            · rw [if_neg hmem] at hok
              set a0 : Annot :=
                { id := id, dir := rec.strand, start := rec.start,
                  stop := rec.stop, ancestral_id := ancestral_id } with ha0
              refine ih (id :: seen) (pushAnnot genomes species rec.chr a0) ?_ ?_ g hok
              · intro s c a ha
                rw [annotsAt_push] at ha
                by_cases hin : s = species ∧ c = rec.chr
                · rw [if_pos hin] at ha
                  rcases List.mem_append.mp ha with h1 | h2
                  · exact List.mem_cons_of_mem _ (hseen s c a h1)
                  · simp only [List.mem_singleton] at h2
                    subst h2
                    exact List.mem_cons_self ..
                · rw [if_neg hin] at ha
                  exact List.mem_cons_of_mem _ (hseen s c a ha)
              · intro s c c' a b ha hb hid
                rw [annotsAt_push] at ha hb
                by_cases hsc : s = species ∧ c = rec.chr
                · rw [if_pos hsc] at ha
                  by_cases hsc' : s = species ∧ c' = rec.chr
                  · rw [if_pos hsc'] at hb
                    rcases List.mem_append.mp ha with ha1 | ha2 <;>
                      rcases List.mem_append.mp hb with hb1 | hb2
                    · exact huniq s c c' a b ha1 hb1 hid
                    · exfalso
                      simp only [List.mem_singleton] at hb2
                      subst hb2
                      simp only [ha0] at hid
                      exact hmem (by rw [← hid]; exact hseen s c a ha1)
                    · exfalso
                      simp only [List.mem_singleton] at ha2
                      subst ha2
                      simp only [ha0] at hid
                      exact hmem (by rw [hid]; exact hseen s c' b hb1)
                    · simp only [List.mem_singleton] at ha2 hb2
                      subst ha2; subst hb2
                      exact ⟨hsc.2.trans hsc'.2.symm, rfl⟩
                  · rw [if_neg hsc'] at hb
                    rcases List.mem_append.mp ha with ha1 | ha2
                    · exact huniq s c c' a b ha1 hb hid
                    · exfalso
                      simp only [List.mem_singleton] at ha2
                      subst ha2
                      simp only [ha0] at hid
                      exact hmem (by rw [hid]; exact hseen s c' b hb)
                · rw [if_neg hsc] at ha
                  by_cases hsc' : s = species ∧ c' = rec.chr
                  · rw [if_pos hsc'] at hb
                    rcases List.mem_append.mp hb with hb1 | hb2
                    · exact huniq s c c' a b ha hb1 hid
                    · exfalso
                      simp only [List.mem_singleton] at hb2
                      subst hb2
                      simp only [ha0] at hid
                      exact hmem (by rw [← hid]; exact hseen s c a ha)
                  · rw [if_neg hsc'] at hb
                    exact huniq s c c' a b ha hb hid
    · rw [if_neg hcl] at hok
      exact ih seen genomes hseen huniq g hok

/-- C8 amended: within a single `parse_genome` call (one input file), at
most one annotation is accumulated per canonical id — the first record
resolving to an id is kept and later ones in the same file are skipped
without error; across files resolving to the same species, duplicates
can occur. -/
theorem dedup_per_file (idType : String) (idExtract : String → Option String)
    (id2ancestral : String → Option Nat) (species : String)
    (records : List Record) (g : Genomes)
    (h : parse_genome idType idExtract id2ancestral species records [] = Except.ok g) :
    ∀ s c c' a b, a ∈ annotsAt g s c → b ∈ annotsAt g s c' →
      a.id = b.id → c = c' ∧ a = b := by
  have huniq :=
    parse_genome_go_uniq idType idExtract id2ancestral species records [] []
      (by intro s c a ha; simp [annotsAt, lookupAssoc] at ha)
      (by intro s c c' a b ha _ _; simp [annotsAt, lookupAssoc] at ha)
      g h
  exact huniq

/-- The genomes accumulated from one file holding gene `g` once. -/
def exOneFileG : Genomes :=
  [("S", [("c",
    [{ id := "g", dir := Strand.Direct, start := 10, stop := 20, ancestral_id := 7 }])])]

/-- C8 witness: the per-file uniqueness evaluated on a concrete one-record
file. -/
theorem dedup_per_file_witness :
    parse_genome "gene" exIdExtract exAnc "S" [exBedG] [] = Except.ok exOneFileG ∧
    (∀ s c c' a b, a ∈ annotsAt exOneFileG s c → b ∈ annotsAt exOneFileG s c' →
      a.id = b.id → c = c' ∧ a = b) :=
  ⟨by decide, dedup_per_file "gene" exIdExtract exAnc "S" [exBedG] exOneFileG (by decide)⟩

/-- C8 counterexample: two input files of the same species both holding
gene `g` leave two annotations for `(S, g)` in one run — the dedup `seen`
set is per file, not per run. -/
theorem dedup_per_run_cx :
    ingestTwice = Except.ok
      [("S", [("c",
        [ { id := "g", dir := Strand.Direct, start := 10, stop := 20, ancestral_id := 7 },
          { id := "g", dir := Strand.Direct, start := 10, stop := 20, ancestral_id := 7 } ])])] ∧
    ingestTwice.map (fun g => pairCount g "S" "g") = Except.ok 2 := by
  refine ⟨by decide, by decide⟩
